import Mathlib

/-!
Shallow embedding of the `bgp_oxide_serde` encoder (src/ser.rs, src/error.rs).

The serializer walks a serde-shaped value, appending big-endian bytes to a
growable buffer, and rejects value kinds the BGP wire format cannot represent,
tagging each rejection with an optional context string built from three
mutable metadata fields on the serializer.
-/

namespace BgpOxideSerde

/-- The serde data model: the shapes a Rust value can expose to the serializer
through the `Serialize` visitor protocol.  Payloads mirror the arguments of the
corresponding `serialize_*` methods in src/ser.rs.  Payloads the serializer
never reads (signed integers, float bit patterns, characters, strings) are
still carried so that theorems can quantify over them. -/
inductive Value where
  | bool (b : Bool)
  | i8 (v : Int)
  | i16 (v : Int)
  | i32 (v : Int)
  | i64 (v : Int)
  | u8 (v : Nat)
  | u16 (v : Nat)
  | u32 (v : Nat)
  | u64 (v : Nat)
  | f32 (bits : Nat)
  | f64 (bits : Nat)
  | char (c : Char)
  | str (t : String)
  | bytes (bs : List Nat)
  | none
  | some (v : Value)
  | unit
  | unitStruct (name : String)
  | unitVariant (name : String) (variant : String)
  | newtypeStruct (name : String) (v : Value)
  | newtypeVariant (name : String) (variant : String) (v : Value)
  | seq (elems : List Value)
  | tuple (elems : List Value)
  | tupleStruct (name : String) (elems : List Value)
  | tupleVariant (name : String) (variant : String) (elems : List Value)
  | map (entries : List (Value × Value))
  | struct (name : String) (fields : List (String × Value))
  | structVariant (name : String) (variant : String) (fields : List (String × Value))

/-- `SerializerError` from src/error.rs. -/
inductive SerializerError where
  | CustomMsg (msg : String)
  | UnsupportedSignedInt (ctx : Option String)
  | UnsupportedFloat (ctx : Option String)
  | UnsupportedMap (ctx : Option String)
  | UnsupportedText (ctx : Option String)
deriving DecidableEq

/-- The serializer state from src/ser.rs: the output buffer (bytes as `Nat`s
below 256 by construction) and the three error-metadata strings. -/
structure Serializer where
  output : List Nat
  _err_type_metadata : String
  _err_variant_metadata : String
  _err_field_metadata : String
deriving DecidableEq

/-- `Serializer::format_metadata` (src/ser.rs lines 38-61): builds the optional
context string from the three metadata fields, keyed on which are empty. -/
def Serializer.format_metadata (s : Serializer) : Option String :=
  let t := s._err_type_metadata
  let v := s._err_variant_metadata
  let f := s._err_field_metadata
  match s._err_type_metadata.isEmpty, s._err_variant_metadata.isEmpty,
        s._err_field_metadata.isEmpty with
  | false, false, false =>
      Option.some ("Type: \"" ++ t ++ "\", Variant: \"" ++ v ++ "\", Field: \"" ++ f ++ "\"")
  | false, false, true =>
      Option.some ("Type: \"" ++ t ++ "\", Variant: \"" ++ v ++ "\"")
  | false, true, false =>
      Option.some ("Type: \"" ++ t ++ "\", Field: \"" ++ f ++ "\"")
  | false, true, true =>
      Option.some ("Type: \"" ++ t ++ "\"")
  | _, _, _ => Option.none

/-- `impl Display for SerializerError` (src/error.rs lines 24-55).  Note the
`UnsupportedText (some msg)` arm of the source has no trailing period, unlike
the other arms. -/
def SerializerError.display : SerializerError → String
  | .CustomMsg msg => msg
  | .UnsupportedSignedInt (Option.some msg) =>
      "Serialization of signed ints unsupported. Error info - " ++ msg ++ "."
  | .UnsupportedSignedInt Option.none =>
      "Serialization of signed ints unsupported."
  | .UnsupportedFloat (Option.some msg) =>
      "Serialization of floats unsupported. Error info - " ++ msg ++ "."
  | .UnsupportedFloat Option.none =>
      "Serialization of floats unsupported."
  | .UnsupportedMap (Option.some msg) =>
      "Serialization of maps unsupported. Error info - " ++ msg ++ "."
  | .UnsupportedMap Option.none =>
      "Serialization of maps unsupported."
  | .UnsupportedText (Option.some msg) =>
      "Serialization of text types unsupported. Error info - " ++ msg
  | .UnsupportedText Option.none =>
      "Serialization of text types unsupported."

/-- The two bytes `BufMut::put_u16` appends: big-endian (network) order. -/
def u16BE (v : Nat) : List Nat :=
  [v / 256 % 256, v % 256]

/-- The four bytes `BufMut::put_u32` appends: big-endian (network) order. -/
def u32BE (v : Nat) : List Nat :=
  [v / 16777216 % 256, v / 65536 % 256, v / 256 % 256, v % 256]

/-- The eight bytes `BufMut::put_u64` appends: big-endian (network) order. -/
def u64BE (v : Nat) : List Nat :=
  [v / 72057594037927936 % 256, v / 281474976710656 % 256,
   v / 1099511627776 % 256, v / 4294967296 % 256,
   v / 16777216 % 256, v / 65536 % 256, v / 256 % 256, v % 256]

mutual

/-- `<&mut Serializer as ser::Serializer>::serialize_*` (src/ser.rs lines
84-278), dispatched on the value shape, with the serializer state threaded
explicitly.  Compound shapes delegate to the `Serialize{Seq,Struct,...}`
impls, modelled by `serializeElems` / `serializeFields`; the derive-generated
`Serialize` impls call begin, then every member in order, then `end`. -/
def serializeValue : Value → Serializer → Except SerializerError Serializer
  | .bool b, s => .ok { s with output := s.output ++ [if b then 1 else 0] }
  | .i8 _, s => .error (.UnsupportedSignedInt s.format_metadata)
  | .i16 _, s => .error (.UnsupportedSignedInt s.format_metadata)
  | .i32 _, s => .error (.UnsupportedSignedInt s.format_metadata)
  | .i64 _, s => .error (.UnsupportedSignedInt s.format_metadata)
  | .u8 v, s => .ok { s with output := s.output ++ [v % 256] }
  | .u16 v, s => .ok { s with output := s.output ++ u16BE v }
  | .u32 v, s => .ok { s with output := s.output ++ u32BE v }
  | .u64 v, s => .ok { s with output := s.output ++ u64BE v }
  | .f32 _, s => .error (.UnsupportedFloat s.format_metadata)
  | .f64 _, s => .error (.UnsupportedFloat s.format_metadata)
  | .char _, s => .error (.UnsupportedText s.format_metadata)
  | .str _, s => .error (.UnsupportedText s.format_metadata)
  | .bytes bs, s => .ok { s with output := s.output ++ bs }
  | .none, s => .ok s
  | .some v, s => serializeValue v s
  | .unit, s => .ok s
  | .unitStruct _, s => .ok s
  | .unitVariant _ _, s => .ok s
  | .newtypeStruct name v, s =>
      serializeValue v { s with _err_type_metadata := name,
                                _err_field_metadata := "",
                                _err_variant_metadata := "" }
  | .newtypeVariant name variant v, s =>
      serializeValue v { s with _err_type_metadata := name,
                                _err_variant_metadata := variant,
                                _err_field_metadata := "" }
  | .seq vs, s => serializeElems vs s
  | .tuple vs, s => serializeElems vs s
  | .tupleStruct name vs, s =>
      serializeElems vs { s with _err_type_metadata := name,
                                 _err_field_metadata := "",
                                 _err_variant_metadata := "" }
  | .tupleVariant name variant vs, s =>
      serializeElems vs { s with _err_type_metadata := name,
                                 _err_variant_metadata := variant,
                                 _err_field_metadata := "" }
  | .map _, s => .error (.UnsupportedMap s.format_metadata)
  | .struct name fs, s =>
      serializeFields fs { s with _err_type_metadata := name,
                                  _err_field_metadata := "",
                                  _err_variant_metadata := "" }
  | .structVariant name variant fs, s =>
      serializeFields fs { s with _err_type_metadata := name,
                                  _err_variant_metadata := variant,
                                  _err_field_metadata := "" }

/-- `SerializeSeq/SerializeTuple/SerializeTupleStruct/SerializeTupleVariant::
serialize_element/serialize_field` followed by `end` (src/ser.rs lines
283-361): members are serialized in order with no delimiters, the first error
short-circuits, and `end` appends nothing. -/
def serializeElems : List Value → Serializer → Except SerializerError Serializer
  | [], s => .ok s
  | v :: vs, s =>
      match serializeValue v s with
      | .ok s1 => serializeElems vs s1
      | .error e => .error e

/-- `SerializeStruct/SerializeStructVariant::serialize_field` followed by
`end` (src/ser.rs lines 334-376): each field first overwrites
`_err_field_metadata` with its key, then serializes its value. -/
def serializeFields : List (String × Value) → Serializer → Except SerializerError Serializer
  | [], s => .ok s
  | (key, value) :: fs, s =>
      match serializeValue value { s with _err_field_metadata := key } with
      | .ok s1 => serializeFields fs s1
      | .error e => .error e

end

/-- `<&mut Serializer as ser::SerializeMap>::serialize_key` (src/ser.rs lines
383-388): always rejects. -/
def serializeMapKey (s : Serializer) (_key : Value) : Except SerializerError Serializer :=
  .error (.UnsupportedMap s.format_metadata)

/-- `<&mut Serializer as ser::SerializeMap>::serialize_value` (src/ser.rs
lines 396-401): always rejects. -/
def serializeMapValue (s : Serializer) (_value : Value) : Except SerializerError Serializer :=
  .error (.UnsupportedMap s.format_metadata)

/-- `<&mut Serializer as ser::SerializeMap>::serialize_entry` (src/ser.rs
lines 389-395): always rejects. -/
def serializeMapEntry (s : Serializer) (_key _value : Value) : Except SerializerError Serializer :=
  .error (.UnsupportedMap s.format_metadata)

/-- `<&mut Serializer as ser::SerializeMap>::end` (src/ser.rs lines 402-405):
always rejects. -/
def serializeMapEnd (s : Serializer) : Except SerializerError Serializer :=
  .error (.UnsupportedMap s.format_metadata)

/-- The serializer `to_bytes` constructs (src/ser.rs lines 21-29): empty
buffer (the 4096 capacity is only a hint) and empty metadata strings. -/
def initSerializer : Serializer :=
  { output := [], _err_type_metadata := "", _err_variant_metadata := "",
    _err_field_metadata := "" }

/-- `to_bytes` (src/ser.rs lines 19-34): serialize from a fresh serializer and
return the finished buffer, or propagate the first error. -/
def to_bytes (in_type : Value) : Except SerializerError (List Nat) :=
  match serializeValue in_type initSerializer with
  | .ok s => .ok s.output
  | .error e => .error e

/-- Projection of a serialization result to just its success/failure status
and output bytes (the buffer is discarded on error by `to_bytes`). -/
def outBytes : Except SerializerError Serializer → Option (List Nat)
  | .ok s => Option.some s.output
  | .error _ => Option.none

/-- Whether a serialization step failed. -/
def isErr : Except SerializerError Serializer → Bool
  | .ok _ => false
  | .error _ => true

mutual

/-- A map occurs somewhere inside the value, at any nesting depth reachable by
the traversal protocol. -/
def containsMap : Value → Bool
  | .some v => containsMap v
  | .newtypeStruct _ v => containsMap v
  | .newtypeVariant _ _ v => containsMap v
  | .seq vs => listContainsMap vs
  | .tuple vs => listContainsMap vs
  | .tupleStruct _ vs => listContainsMap vs
  | .tupleVariant _ _ vs => listContainsMap vs
  | .map _ => true
  | .struct _ fs => fieldsContainMap fs
  | .structVariant _ _ fs => fieldsContainMap fs
  | _ => false

/-- Some element of the list contains a map. -/
def listContainsMap : List Value → Bool
  | [] => false
  | v :: vs => containsMap v || listContainsMap vs

/-- Some field value of the list contains a map. -/
def fieldsContainMap : List (String × Value) → Bool
  | [] => false
  | (_, v) :: fs => containsMap v || fieldsContainMap fs

end

/-- The bytes a supported scalar-shaped value appends, if it is one of the
shapes the serializer encodes without touching the metadata fields. -/
def scalarBytes : Value → Option (List Nat)
  | .bool b => Option.some [if b then 1 else 0]
  | .u8 v => Option.some [v % 256]
  | .u16 v => Option.some (u16BE v)
  | .u32 v => Option.some (u32BE v)
  | .u64 v => Option.some (u64BE v)
  | .bytes bs => Option.some bs
  | .none => Option.some []
  | .unit => Option.some []
  | _ => Option.none

/-- The value shapes the serializer unconditionally rejects, paired with the
error constructor each one raises (src/ser.rs lines 93-144). -/
inductive UnsupKind : Value → (Option String → SerializerError) → Prop where
  | i8 (v : Int) : UnsupKind (.i8 v) SerializerError.UnsupportedSignedInt
  | i16 (v : Int) : UnsupKind (.i16 v) SerializerError.UnsupportedSignedInt
  | i32 (v : Int) : UnsupKind (.i32 v) SerializerError.UnsupportedSignedInt
  | i64 (v : Int) : UnsupKind (.i64 v) SerializerError.UnsupportedSignedInt
  | f32 (bits : Nat) : UnsupKind (.f32 bits) SerializerError.UnsupportedFloat
  | f64 (bits : Nat) : UnsupKind (.f64 bits) SerializerError.UnsupportedFloat
  | char (c : Char) : UnsupKind (.char c) SerializerError.UnsupportedText
  | str (t : String) : UnsupKind (.str t) SerializerError.UnsupportedText

/-- Big-endian interpretation of a byte list. -/
def beVal (bs : List Nat) : Nat :=
  bs.foldl (fun a b => a * 256 + b) 0

/-! ### Helper lemmas -/

/-- A supported scalar shape appends its bytes and leaves the metadata
untouched. -/
theorem scalar_ok : ∀ {v : Value} {bs : List Nat}, scalarBytes v = Option.some bs →
    ∀ s : Serializer, serializeValue v s = .ok { s with output := s.output ++ bs }
  | .bool b, _, h, s => by
      simp only [scalarBytes, Option.some.injEq] at h
      simp [serializeValue, ← h]
  | .u8 v, _, h, s => by
      simp only [scalarBytes, Option.some.injEq] at h
      simp [serializeValue, ← h]
  | .u16 v, _, h, s => by
      simp only [scalarBytes, Option.some.injEq] at h
      simp [serializeValue, ← h]
  | .u32 v, _, h, s => by
      simp only [scalarBytes, Option.some.injEq] at h
      simp [serializeValue, ← h]
  | .u64 v, _, h, s => by
      simp only [scalarBytes, Option.some.injEq] at h
      simp [serializeValue, ← h]
  | .bytes bs, _, h, s => by
      simp only [scalarBytes, Option.some.injEq] at h
      simp [serializeValue, ← h]
  | .none, _, h, s => by
      simp only [scalarBytes, Option.some.injEq] at h
      simp [serializeValue, ← h]
  | .unit, _, h, s => by
      simp only [scalarBytes, Option.some.injEq] at h
      simp [serializeValue, ← h]

/-- An unconditionally rejected shape raises its error constructor applied to
the context formatted from the state at the point of failure. -/
theorem unsup_err {x : Value} {k : Option String → SerializerError}
    (h : UnsupKind x k) (s : Serializer) :
    serializeValue x s = .error (k s.format_metadata) := by
  cases h <;> simp [serializeValue]

/-- The first erroring element short-circuits `serializeElems`: elements after
it are never visited and the same error is returned. -/
theorem serializeElems_append_error (xs : List Value) :
    ∀ (ys : List Value) (s : Serializer) (e : SerializerError),
      serializeElems xs s = .error e → serializeElems (xs ++ ys) s = .error e := by
  induction xs with
  | nil => intro ys s e h; simp [serializeElems] at h
  | cons v vs ih =>
    intro ys s e h
    rw [serializeElems] at h
    rw [List.cons_append, serializeElems]
    cases hv : serializeValue v s with
    | ok s1 =>
      rw [hv] at h
      simpa using ih ys s1 e h
    | error e1 =>
      rw [hv] at h
      simpa using h

/-- The first erroring field short-circuits `serializeFields`: fields after it
are never visited and the same error is returned. -/
theorem serializeFields_append_error (xs : List (String × Value)) :
    ∀ (ys : List (String × Value)) (s : Serializer) (e : SerializerError),
      serializeFields xs s = .error e → serializeFields (xs ++ ys) s = .error e := by
  induction xs with
  | nil => intro ys s e h; simp [serializeFields] at h
  | cons kv fs ih =>
    intro ys s e h
    obtain ⟨key, value⟩ := kv
    rw [serializeFields] at h
    rw [List.cons_append, serializeFields]
    cases hv : serializeValue value { s with _err_field_metadata := key } with
    | ok s1 =>
      rw [hv] at h
      simpa using ih ys s1 e h
    | error e1 =>
      rw [hv] at h
      simpa using h

/-- Elementwise output-irrelevance lifts to element lists: if every element's
result bytes depend only on the incoming buffer, so does the whole run. -/
theorem elems_irrel_of (vs : List Value)
    (ih : ∀ v, v ∈ vs → ∀ t1 t2 : Serializer, t1.output = t2.output →
      outBytes (serializeValue v t1) = outBytes (serializeValue v t2)) :
    ∀ s1 s2 : Serializer, s1.output = s2.output →
      outBytes (serializeElems vs s1) = outBytes (serializeElems vs s2) := by
  induction vs with
  | nil => intro s1 s2 h; simp [serializeElems, outBytes, h]
  | cons v vs ihl =>
    intro s1 s2 h
    have hv := ih v (List.mem_cons_self v vs) s1 s2 h
    rw [serializeElems, serializeElems]
    cases h1 : serializeValue v s1 with
    | ok a =>
      cases h2 : serializeValue v s2 with
      | ok b =>
        have hab : a.output = b.output := by
          rw [h1, h2] at hv
          simpa [outBytes] using hv
        exact ihl (fun x hx => ih x (List.mem_cons_of_mem _ hx)) a b hab
      | error e => rw [h1, h2] at hv; simp [outBytes] at hv
    | error e1 =>
      cases h2 : serializeValue v s2 with
      | ok b => rw [h1, h2] at hv; simp [outBytes] at hv
      | error e2 => simp [outBytes]

/-- Fieldwise output-irrelevance lifts to field lists. -/
theorem fields_irrel_of (fs : List (String × Value))
    (ih : ∀ kv : String × Value, kv ∈ fs → ∀ t1 t2 : Serializer, t1.output = t2.output →
      outBytes (serializeValue kv.2 t1) = outBytes (serializeValue kv.2 t2)) :
    ∀ s1 s2 : Serializer, s1.output = s2.output →
      outBytes (serializeFields fs s1) = outBytes (serializeFields fs s2) := by
  induction fs with
  | nil => intro s1 s2 h; simp [serializeFields, outBytes, h]
  | cons kv fs ihl =>
    intro s1 s2 h
    obtain ⟨key, value⟩ := kv
    have hv := ih (key, value) (List.mem_cons_self _ fs)
      { s1 with _err_field_metadata := key } { s2 with _err_field_metadata := key } (by simpa using h)
    rw [serializeFields, serializeFields]
    cases h1 : serializeValue value { s1 with _err_field_metadata := key } with
    | ok a =>
      cases h2 : serializeValue value { s2 with _err_field_metadata := key } with
      | ok b =>
        have hab : a.output = b.output := by
          rw [h1, h2] at hv
          simpa [outBytes] using hv
        exact ihl (fun x hx => ih x (List.mem_cons_of_mem _ hx)) a b hab
      | error e => rw [h1, h2] at hv; simp [outBytes] at hv
    | error e1 =>
      cases h2 : serializeValue value { s2 with _err_field_metadata := key } with
      | ok b => rw [h1, h2] at hv; simp [outBytes] at hv
      | error e2 => simp [outBytes]

/-- The serializer's metadata fields influence error payloads only: the
success status and the output bytes of a run depend only on the value and the
incoming buffer.  Proved by strong induction on the size of the value. -/
theorem out_irrel_aux : ∀ (n : Nat) (v : Value), sizeOf v < n →
    ∀ s1 s2 : Serializer, s1.output = s2.output →
      outBytes (serializeValue v s1) = outBytes (serializeValue v s2) := by
  intro n
  induction n with
  | zero => intro v h; exact absurd h (Nat.not_lt_zero _)
  | succ n ih =>
    intro v hv s1 s2 h
    cases v with
    | bool b => simp [serializeValue, outBytes, h]
    | i8 v => simp [serializeValue, outBytes]
    | i16 v => simp [serializeValue, outBytes]
    | i32 v => simp [serializeValue, outBytes]
    | i64 v => simp [serializeValue, outBytes]
    | u8 v => simp [serializeValue, outBytes, h]
    | u16 v => simp [serializeValue, outBytes, h]
    | u32 v => simp [serializeValue, outBytes, h]
    | u64 v => simp [serializeValue, outBytes, h]
    | f32 b => simp [serializeValue, outBytes]
    | f64 b => simp [serializeValue, outBytes]
    | char c => simp [serializeValue, outBytes]
    | str t => simp [serializeValue, outBytes]
    | bytes bs => simp [serializeValue, outBytes, h]
    | none => simp [serializeValue, outBytes, h]
    | some v =>
      have hlt : sizeOf v < n := by simp at hv; omega
      simp only [serializeValue]
      exact ih v hlt s1 s2 h
    | unit => simp [serializeValue, outBytes, h]
    | unitStruct name => simp [serializeValue, outBytes, h]
    | unitVariant name variant => simp [serializeValue, outBytes, h]
    | newtypeStruct name v =>
      have hlt : sizeOf v < n := by simp at hv; omega
      simp only [serializeValue]
      exact ih v hlt _ _ (by simpa using h)
    | newtypeVariant name variant v =>
      have hlt : sizeOf v < n := by simp at hv; omega
      simp only [serializeValue]
      exact ih v hlt _ _ (by simpa using h)
    | seq vs =>
      have hsz : sizeOf vs < n := by simp at hv; omega
      simp only [serializeValue]
      refine elems_irrel_of vs ?_ s1 s2 h
      intro x hx t1 t2 ht
      exact ih x (lt_trans (List.sizeOf_lt_of_mem hx) hsz) t1 t2 ht
    | tuple vs =>
      have hsz : sizeOf vs < n := by simp at hv; omega
      simp only [serializeValue]
      refine elems_irrel_of vs ?_ s1 s2 h
      intro x hx t1 t2 ht
      exact ih x (lt_trans (List.sizeOf_lt_of_mem hx) hsz) t1 t2 ht
    | tupleStruct name vs =>
      have hsz : sizeOf vs < n := by simp at hv; omega
      simp only [serializeValue]
      refine elems_irrel_of vs ?_ _ _ (by simpa using h)
      intro x hx t1 t2 ht
      exact ih x (lt_trans (List.sizeOf_lt_of_mem hx) hsz) t1 t2 ht
    | tupleVariant name variant vs =>
      have hsz : sizeOf vs < n := by simp at hv; omega
      simp only [serializeValue]
      refine elems_irrel_of vs ?_ _ _ (by simpa using h)
      intro x hx t1 t2 ht
      exact ih x (lt_trans (List.sizeOf_lt_of_mem hx) hsz) t1 t2 ht
    | map entries => simp [serializeValue, outBytes]
    | struct name fs =>
      have hsz : sizeOf fs < n := by simp at hv; omega
      simp only [serializeValue]
      refine fields_irrel_of fs ?_ _ _ (by simpa using h)
      intro kv hkv t1 t2 ht
      have h1 : sizeOf kv < sizeOf fs := List.sizeOf_lt_of_mem hkv
      obtain ⟨k1, v1⟩ := kv
      have hlt : sizeOf v1 < n := by simp at h1; omega
      exact ih v1 hlt t1 t2 ht
    | structVariant name variant fs =>
      have hsz : sizeOf fs < n := by simp at hv; omega
      simp only [serializeValue]
      refine fields_irrel_of fs ?_ _ _ (by simpa using h)
      intro kv hkv t1 t2 ht
      have h1 : sizeOf kv < sizeOf fs := List.sizeOf_lt_of_mem hkv
      obtain ⟨k1, v1⟩ := kv
      have hlt : sizeOf v1 < n := by simp at h1; omega
      exact ih v1 hlt t1 t2 ht

/-- Metadata irrelevance at the top: two runs of the same value from states
with the same buffer have the same success status and output bytes. -/
theorem serialize_out_irrel (v : Value) (s1 s2 : Serializer) (h : s1.output = s2.output) :
    outBytes (serializeValue v s1) = outBytes (serializeValue v s2) :=
  out_irrel_aux (sizeOf v + 1) v (Nat.lt_succ_self _) s1 s2 h

/-- If some element of the list contains a map, running the elements fails. -/
theorem elems_err_of (vs : List Value)
    (ih : ∀ v, v ∈ vs → containsMap v = true → ∀ s : Serializer, isErr (serializeValue v s) = true)
    (hm : listContainsMap vs = true) :
    ∀ s : Serializer, isErr (serializeElems vs s) = true := by
  induction vs with
  | nil => intro s; simp [listContainsMap] at hm
  | cons v vs ihl =>
    intro s
    rw [serializeElems]
    cases hv : serializeValue v s with
    | error e => simp [isErr]
    | ok s1 =>
      rw [listContainsMap] at hm
      cases hcv : containsMap v with
      | true =>
        have hes := ih v (List.mem_cons_self v vs) hcv s
        rw [hv] at hes
        simp [isErr] at hes
      | false =>
        have hvs : listContainsMap vs = true := by simpa [hcv] using hm
        exact ihl (fun x hx => ih x (List.mem_cons_of_mem _ hx)) hvs s1

/-- If some field value of the list contains a map, running the fields
fails. -/
theorem fields_err_of (fs : List (String × Value))
    (ih : ∀ kv : String × Value, kv ∈ fs → containsMap kv.2 = true →
      ∀ s : Serializer, isErr (serializeValue kv.2 s) = true)
    (hm : fieldsContainMap fs = true) :
    ∀ s : Serializer, isErr (serializeFields fs s) = true := by
  induction fs with
  | nil => intro s; simp [fieldsContainMap] at hm
  | cons kv fs ihl =>
    intro s
    obtain ⟨key, value⟩ := kv
    rw [serializeFields]
    cases hv : serializeValue value { s with _err_field_metadata := key } with
    | error e => simp [isErr]
    | ok s1 =>
      rw [fieldsContainMap] at hm
      cases hcv : containsMap value with
      | true =>
        have hes := ih (key, value) (List.mem_cons_self _ fs) hcv
          { s with _err_field_metadata := key }
        rw [hv] at hes
        simp [isErr] at hes
      | false =>
        have hvs : fieldsContainMap fs = true := by simpa [hcv] using hm
        exact ihl (fun x hx => ih x (List.mem_cons_of_mem _ hx)) hvs s1

/-- Any value containing a map, at any nesting depth, fails to serialize from
any state.  Strong induction on the size of the value. -/
theorem containsMap_err_aux : ∀ (n : Nat) (v : Value), sizeOf v < n →
    containsMap v = true → ∀ s : Serializer, isErr (serializeValue v s) = true := by
  intro n
  induction n with
  | zero => intro v h; exact absurd h (Nat.not_lt_zero _)
  | succ n ih =>
    intro v hv hm s
    cases v with
    | bool b => simp [containsMap] at hm
    | i8 v => simp [containsMap] at hm
    | i16 v => simp [containsMap] at hm
    | i32 v => simp [containsMap] at hm
    | i64 v => simp [containsMap] at hm
    | u8 v => simp [containsMap] at hm
    | u16 v => simp [containsMap] at hm
    | u32 v => simp [containsMap] at hm
    | u64 v => simp [containsMap] at hm
    | f32 b => simp [containsMap] at hm
    | f64 b => simp [containsMap] at hm
    | char c => simp [containsMap] at hm
    | str t => simp [containsMap] at hm
    | bytes bs => simp [containsMap] at hm
    | none => simp [containsMap] at hm
    | some v =>
      have hlt : sizeOf v < n := by simp at hv; omega
      rw [containsMap] at hm
      simp only [serializeValue]
      exact ih v hlt hm s
    | unit => simp [containsMap] at hm
    | unitStruct name => simp [containsMap] at hm
    | unitVariant name variant => simp [containsMap] at hm
    | newtypeStruct name v =>
      have hlt : sizeOf v < n := by simp at hv; omega
      rw [containsMap] at hm
      simp only [serializeValue]
      exact ih v hlt hm _
    | newtypeVariant name variant v =>
      have hlt : sizeOf v < n := by simp at hv; omega
      rw [containsMap] at hm
      simp only [serializeValue]
      exact ih v hlt hm _
    | seq vs =>
      have hsz : sizeOf vs < n := by simp at hv; omega
      rw [containsMap] at hm
      simp only [serializeValue]
      exact elems_err_of vs
        (fun x hx hcx t => ih x (lt_trans (List.sizeOf_lt_of_mem hx) hsz) hcx t) hm s
    | tuple vs =>
      have hsz : sizeOf vs < n := by simp at hv; omega
      rw [containsMap] at hm
      simp only [serializeValue]
      exact elems_err_of vs
        (fun x hx hcx t => ih x (lt_trans (List.sizeOf_lt_of_mem hx) hsz) hcx t) hm s
    | tupleStruct name vs =>
      have hsz : sizeOf vs < n := by simp at hv; omega
      rw [containsMap] at hm
      simp only [serializeValue]
      exact elems_err_of vs
        (fun x hx hcx t => ih x (lt_trans (List.sizeOf_lt_of_mem hx) hsz) hcx t) hm _
    | tupleVariant name variant vs =>
      have hsz : sizeOf vs < n := by simp at hv; omega
      rw [containsMap] at hm
      simp only [serializeValue]
      exact elems_err_of vs
        (fun x hx hcx t => ih x (lt_trans (List.sizeOf_lt_of_mem hx) hsz) hcx t) hm _
    | map entries => simp [serializeValue, isErr]
    | struct name fs =>
      have hsz : sizeOf fs < n := by simp at hv; omega
      rw [containsMap] at hm
      simp only [serializeValue]
      refine fields_err_of fs ?_ hm _
      intro kv hkv hck t
      have h1 : sizeOf kv < sizeOf fs := List.sizeOf_lt_of_mem hkv
      obtain ⟨k1, v1⟩ := kv
      have hlt : sizeOf v1 < n := by simp at h1; omega
      exact ih v1 hlt hck t
    | structVariant name variant fs =>
      have hsz : sizeOf fs < n := by simp at hv; omega
      rw [containsMap] at hm
      simp only [serializeValue]
      refine fields_err_of fs ?_ hm _
      intro kv hkv hck t
      have h1 : sizeOf kv < sizeOf fs := List.sizeOf_lt_of_mem hkv
      obtain ⟨k1, v1⟩ := kv
      have hlt : sizeOf v1 < n := by simp at h1; omega
      exact ih v1 hlt hck t

/-- Top-level form of `containsMap_err_aux`. -/
theorem containsMap_err (v : Value) (hm : containsMap v = true) (s : Serializer) :
    isErr (serializeValue v s) = true :=
  containsMap_err_aux (sizeOf v + 1) v (Nat.lt_succ_self _) hm s

/-! ### Claims -/

/-- Claim C1: for every supported unsigned width w in 8/16/32/64 and value v
representable in w bits, encoding v appends exactly w/8 bytes in big-endian
(network) byte order — interpreting the appended bytes as a big-endian numeral
recovers v — and in particular encoding the 16-bit value 258 yields the bytes
1 and 2. -/
theorem c1_unsigned_bigendian (s : Serializer) (v : Nat) :
    (serializeValue (Value.u8 v) s = .ok { s with output := s.output ++ [v % 256] }
      ∧ ([v % 256] : List Nat).length = 1 ∧ (v < 256 → beVal [v % 256] = v))
  ∧ (serializeValue (Value.u16 v) s = .ok { s with output := s.output ++ u16BE v }
      ∧ (u16BE v).length = 2 ∧ (v < 65536 → beVal (u16BE v) = v))
  ∧ (serializeValue (Value.u32 v) s = .ok { s with output := s.output ++ u32BE v }
      ∧ (u32BE v).length = 4 ∧ (v < 4294967296 → beVal (u32BE v) = v))
  ∧ (serializeValue (Value.u64 v) s = .ok { s with output := s.output ++ u64BE v }
      ∧ (u64BE v).length = 8 ∧ (v < 18446744073709551616 → beVal (u64BE v) = v))
  ∧ to_bytes (Value.u16 258) = .ok [1, 2] := by
  refine ⟨⟨?_, ?_, ?_⟩, ⟨?_, ?_, ?_⟩, ⟨?_, ?_, ?_⟩, ⟨?_, ?_, ?_⟩, ?_⟩
  · simp [serializeValue]
  · simp
  · intro h; simp only [beVal, List.foldl]; omega
  · simp [serializeValue]
  · simp [u16BE]
  · intro h; simp only [beVal, u16BE, List.foldl]; omega
  · simp [serializeValue]
  · simp [u32BE]
  · intro h; simp only [beVal, u32BE, List.foldl]; omega
  · simp [serializeValue]
  · simp [u64BE]
  · intro h; simp only [beVal, u64BE, List.foldl]; omega
  · simp [to_bytes, serializeValue, initSerializer, u16BE]

/-- Witness for C1 at the concrete input 258. -/
theorem c1_witness :
    beVal (u16BE 258) = 258 ∧ to_bytes (Value.u16 258) = .ok [1, 2] :=
  ⟨(c1_unsigned_bigendian initSerializer 258).2.1.2.2 (by decide),
   (c1_unsigned_bigendian initSerializer 258).2.2.2.2⟩

/-- Claim C2, counterexample: the context labels do not always reflect only
the currently open container chain.  In the record `Outer` whose first field
`a` holds the newtype `Inner` (a container whose encoding has finished by the
time field `b` is reached) and whose second field `b` holds a signed integer,
the returned error names type `Inner`, not the open container `Outer`. -/
theorem c2_counterexample :
    to_bytes (Value.struct "Outer"
        [("a", Value.newtypeStruct "Inner" (Value.u8 7)), ("b", Value.i8 1)])
      = .error (.UnsupportedSignedInt (Option.some "Type: \"Inner\", Field: \"b\""))
  ∧ Option.some "Type: \"Inner\", Field: \"b\"" ≠ Option.some "Type: \"Outer\", Field: \"b\"" := by
  constructor
  · simp [to_bytes, serializeValue, serializeFields, initSerializer, Serializer.format_metadata]
    decide
  · decide

/-- Claim C2 as amended: the field label reflects only the field currently
being encoded, so for a record with two successive scalar fields where only
the second is unsupported, the error context names only the second field (the
type label, however, is the most recently entered named container, which need
not still be open). -/
theorem c2_amended_field_label (name f1 f2 : String) (v1 v2 : Value) (bs : List Nat)
    (k : Option String → SerializerError)
    (h1 : scalarBytes v1 = Option.some bs) (h2 : UnsupKind v2 k)
    (hn : name.isEmpty = false) (hf : f2.isEmpty = false) :
    to_bytes (Value.struct name [(f1, v1), (f2, v2)])
      = .error (k (Option.some ("Type: \"" ++ name ++ "\", Field: \"" ++ f2 ++ "\""))) := by
  simp [to_bytes, serializeValue, serializeFields, initSerializer, scalar_ok h1,
    unsup_err h2, Serializer.format_metadata, hn, hf,
    show ("" : String).isEmpty = true from rfl]

/-- Witness for C2's amended theorem at a concrete record. -/
theorem c2_witness :
    to_bytes (Value.struct "S" [("a", Value.u8 1), ("b", Value.i8 0)])
      = .error (.UnsupportedSignedInt (Option.some "Type: \"S\", Field: \"b\"")) := by
  have h := c2_amended_field_label "S" "a" "b" (Value.u8 1) (Value.i8 0) [1]
    SerializerError.UnsupportedSignedInt (by decide) (UnsupKind.i8 0) rfl rfl
  have hs : ("Type: \"" ++ "S" ++ "\", Field: \"" ++ "b" ++ "\"")
      = "Type: \"S\", Field: \"b\"" := by decide
  rw [hs] at h
  exact h

/-- Claim C3 (code bug): the spec and the repository's own tests say every
unsupported-kind message ends in a period after the context, but the
`UnsupportedText (some msg)` arm of `Display` (src/error.rs line 47) omits the
trailing period, while the signed-int, float and map arms include it.  The
first conjunct reproduces the failing test input
`EnumTextTest::NewTypeVariant('F')` from src/ser.rs. -/
theorem c3_text_message_missing_period :
    to_bytes (Value.newtypeVariant "EnumTextTest" "NewTypeVariant" (Value.char 'F'))
      = .error (.UnsupportedText (Option.some "Type: \"EnumTextTest\", Variant: \"NewTypeVariant\""))
  ∧ SerializerError.display
      (.UnsupportedText (Option.some "Type: \"EnumTextTest\", Variant: \"NewTypeVariant\""))
      = "Serialization of text types unsupported. Error info - Type: \"EnumTextTest\", Variant: \"NewTypeVariant\""
  ∧ SerializerError.display
      (.UnsupportedText (Option.some "Type: \"EnumTextTest\", Variant: \"NewTypeVariant\""))
      ≠ "Serialization of text types unsupported. Error info - Type: \"EnumTextTest\", Variant: \"NewTypeVariant\"."
  ∧ SerializerError.display (.UnsupportedSignedInt (Option.some "Type: \"X\""))
      = "Serialization of signed ints unsupported. Error info - Type: \"X\"."
  ∧ SerializerError.display (.UnsupportedFloat (Option.some "Type: \"X\""))
      = "Serialization of floats unsupported. Error info - Type: \"X\"."
  ∧ SerializerError.display (.UnsupportedMap (Option.some "Type: \"X\""))
      = "Serialization of maps unsupported. Error info - Type: \"X\"." := by
  refine ⟨?_, by decide, by decide, by decide, by decide, by decide⟩
  simp [to_bytes, serializeValue, initSerializer, Serializer.format_metadata]
  decide

/-- Claim C4: a map is rejected at first contact with `UnsupportedMap`
carrying the current context, regardless of entries or emptiness and in any
position — the begin step, plus the key, value, entry and finalize steps of
the map protocol, all return the error; any value containing a map at any
depth fails to encode; and a bare top-level map fails with no context
string. -/
theorem c4_maps_always_rejected (v : Value) (s : Serializer)
    (entries : List (Value × Value)) (key value : Value) :
    (containsMap v = true → isErr (serializeValue v s) = true)
  ∧ serializeValue (Value.map entries) s = .error (.UnsupportedMap s.format_metadata)
  ∧ serializeMapKey s key = .error (.UnsupportedMap s.format_metadata)
  ∧ serializeMapValue s value = .error (.UnsupportedMap s.format_metadata)
  ∧ serializeMapEntry s key value = .error (.UnsupportedMap s.format_metadata)
  ∧ serializeMapEnd s = .error (.UnsupportedMap s.format_metadata)
  ∧ to_bytes (Value.map entries) = .error (.UnsupportedMap Option.none) := by
  refine ⟨fun hm => containsMap_err v hm s, by simp [serializeValue], rfl, rfl, rfl, rfl, ?_⟩
  simp [to_bytes, serializeValue, initSerializer, Serializer.format_metadata]
  decide

/-- Witness for C4 at a concrete nested map and a concrete bare map. -/
theorem c4_witness :
    isErr (serializeValue (Value.struct "S" [("f", Value.map [])]) initSerializer) = true
  ∧ to_bytes (Value.map []) = .error (.UnsupportedMap Option.none) := by
  have h := c4_maps_always_rejected (Value.struct "S" [("f", Value.map [])])
    initSerializer [] Value.unit Value.unit
  exact ⟨h.1 (by simp [containsMap, fieldsContainMap]), h.2.2.2.2.2.2⟩

/-- Claim C5: signed integers of any width fail with `UnsupportedSignedInt`,
floats of any width with `UnsupportedFloat`, characters and strings with
`UnsupportedText`, always carrying the context formatted from the state at
the failure point, in every placement: bare, newtype, tuple-struct, struct,
newtype-variant, tuple-variant and struct-variant. -/
theorem c5_unsupported_scalar_kinds {x : Value} {k : Option String → SerializerError}
    (hx : UnsupKind x k) (s : Serializer) (name variant field : String) :
    serializeValue x s = .error (k s.format_metadata)
  ∧ to_bytes (Value.newtypeStruct name x)
      = .error (k (Serializer.format_metadata ⟨[], name, "", ""⟩))
  ∧ to_bytes (Value.tupleStruct name [x])
      = .error (k (Serializer.format_metadata ⟨[], name, "", ""⟩))
  ∧ to_bytes (Value.struct name [(field, x)])
      = .error (k (Serializer.format_metadata ⟨[], name, "", field⟩))
  ∧ to_bytes (Value.newtypeVariant name variant x)
      = .error (k (Serializer.format_metadata ⟨[], name, variant, ""⟩))
  ∧ to_bytes (Value.tupleVariant name variant [x])
      = .error (k (Serializer.format_metadata ⟨[], name, variant, ""⟩))
  ∧ to_bytes (Value.structVariant name variant [(field, x)])
      = .error (k (Serializer.format_metadata ⟨[], name, variant, field⟩)) := by
  refine ⟨unsup_err hx s, ?_, ?_, ?_, ?_, ?_, ?_⟩ <;>
    simp [to_bytes, serializeValue, serializeElems, serializeFields,
      initSerializer, unsup_err hx]

/-- Witness for C5 at a concrete character in a concrete struct variant. -/
theorem c5_witness :
    serializeValue (Value.char 'F') initSerializer
      = .error (.UnsupportedText (Serializer.format_metadata initSerializer))
  ∧ to_bytes (Value.structVariant "E" "V" [("f", Value.char 'F')])
      = .error (.UnsupportedText (Serializer.format_metadata ⟨[], "E", "V", "f"⟩)) := by
  have h := c5_unsupported_scalar_kinds (UnsupKind.char 'F') initSerializer "E" "V" "f"
  exact ⟨h.1, h.2.2.2.2.2.2⟩

/-- Claim C6: presence wrappers (optional-some), newtype wrappers, and
newtype-variant payloads are transparent on the wire: from any state, the
run's success status and buffer contents are exactly those of encoding the
inner value itself — no extra bytes before or after. -/
theorem c6_wrappers_transparent (x : Value) (s : Serializer) (name variant : String) :
    outBytes (serializeValue (Value.some x) s) = outBytes (serializeValue x s)
  ∧ outBytes (serializeValue (Value.newtypeStruct name x) s) = outBytes (serializeValue x s)
  ∧ outBytes (serializeValue (Value.newtypeVariant name variant x) s)
      = outBytes (serializeValue x s) := by
  refine ⟨?_, ?_, ?_⟩
  · simp only [serializeValue]
  · simp only [serializeValue]
    exact serialize_out_irrel x _ s (by simp)
  · simp only [serializeValue]
    exact serialize_out_irrel x _ s (by simp)

/-- Claim C7: encoding an absent optional, a unit, a unit struct, a unit
variant, or an empty sequence succeeds and contributes exactly zero bytes
(the empty sequence case is element-type independent since no element is ever
visited). -/
theorem c7_absence_zero_bytes (name variant : String) :
    to_bytes Value.none = .ok []
  ∧ to_bytes Value.unit = .ok []
  ∧ to_bytes (Value.unitStruct name) = .ok []
  ∧ to_bytes (Value.unitVariant name variant) = .ok []
  ∧ to_bytes (Value.seq []) = .ok []
  ∧ (∀ s : Serializer, serializeValue (Value.seq []) s = .ok s) := by
  refine ⟨?_, ?_, ?_, ?_, ?_, ?_⟩ <;>
    simp [to_bytes, serializeValue, serializeElems, initSerializer]

/-- Claim C8: the first error during member iteration aborts the remaining
members — appending further members after an erroring prefix changes nothing,
the same error is returned by the whole encode call, and (since the failed
run's buffer is discarded) no further bytes are ever appended. -/
theorem c8_first_error_aborts (s : Serializer) (e : SerializerError)
    (xs ys : List Value) (fs gs : List (String × Value)) :
    (serializeElems xs s = .error e → serializeElems (xs ++ ys) s = .error e)
  ∧ (serializeFields fs s = .error e → serializeFields (fs ++ gs) s = .error e)
  ∧ (serializeElems xs initSerializer = .error e →
      to_bytes (Value.seq (xs ++ ys)) = .error e)
  ∧ (serializeElems xs initSerializer = .error e →
      to_bytes (Value.tuple (xs ++ ys)) = .error e) := by
  refine ⟨serializeElems_append_error xs ys s e,
    serializeFields_append_error fs gs s e, ?_, ?_⟩ <;>
  · intro h
    simp only [to_bytes, serializeValue,
      serializeElems_append_error xs ys initSerializer e h]

/-- Witness for C8 at a concrete erroring prefix. -/
theorem c8_witness :
    serializeElems ([Value.i8 0] ++ [Value.u8 1]) initSerializer
      = .error (.UnsupportedSignedInt Option.none)
  ∧ serializeFields ([("a", Value.i8 0)] ++ [("b", Value.u8 1)]) initSerializer
      = .error (.UnsupportedSignedInt Option.none)
  ∧ to_bytes (Value.seq ([Value.i8 0] ++ [Value.u8 1]))
      = .error (.UnsupportedSignedInt Option.none) := by
  have h := c8_first_error_aborts initSerializer (.UnsupportedSignedInt Option.none)
    [Value.i8 0] [Value.u8 1] [("a", Value.i8 0)] [("b", Value.u8 1)]
  refine ⟨h.1 ?_, h.2.1 ?_, h.2.2.1 ?_⟩ <;>
    (simp [serializeElems, serializeFields, serializeValue, initSerializer,
       Serializer.format_metadata]
     decide)

/-- Claim C9: encoding a boolean writes exactly one byte, 1 for true and 0
for false. -/
theorem c9_bool_single_byte :
    to_bytes (Value.bool true) = .ok [1] ∧ to_bytes (Value.bool false) = .ok [0] := by
  constructor <;> simp [to_bytes, serializeValue, initSerializer]

/-- Claim C10: whenever the type label is empty, `format_metadata` returns no
context string at all, even if the variant or field labels are non-empty, so
an unsupported value reached with no recorded type name yields an error with
absent context. -/
theorem c10_empty_type_label_no_context (o : List Nat) (vv f : String) (k : Int) :
    Serializer.format_metadata ⟨o, "", vv, f⟩ = Option.none
  ∧ serializeValue (Value.i8 k) ⟨o, "", vv, f⟩ = .error (.UnsupportedSignedInt Option.none) := by
  have hfmt : Serializer.format_metadata ⟨o, "", vv, f⟩ = Option.none := by
    simp only [Serializer.format_metadata]
    rfl
  refine ⟨hfmt, ?_⟩
  simp only [serializeValue, hfmt]

end BgpOxideSerde
